import Mathlib

/-!
Verification development for the AI-Video-Transcriber backend
(`backend/main.py`, `backend/media_source.py`, `backend/podcast_resolver.py`,
`backend/video_processor.py`).

The Python code is shallowly embedded: pure functions become Lean functions,
stateful handlers become explicit state-passing functions, and calls to
external collaborators (yt-dlp, whisper, ffmpeg, the network) become
parameters recording the collaborator's outcome.  Python exceptions are
modelled with `Except String`.  Strings are manipulated as `List Char`
internally, matching Python's per-code-point string semantics.
-/

deriving instance DecidableEq for Except

namespace AVT

/-! ## Generic list/string helpers (models of Python primitives) -/

/-- Model of Python list/string equality-prefix test, on char lists. -/
def isPrefixL : List Char → List Char → Bool
  | [], _ => true
  | _ :: _, [] => false
  | a :: as, b :: bs => a == b && isPrefixL as bs

/-- `true` iff an `Except` value is a normal return (not a raised
exception). -/
def exceptIsOk {α : Type} : Except String α → Bool
  | .ok _ => true
  | .error _ => false

/-- Model of the Python substring test `pat in s` on char lists. -/
def isSubL (pat : List Char) : List Char → Bool
  | [] => pat.isEmpty
  | c :: rest => isPrefixL pat (c :: rest) || isSubL pat rest

/-- Model of Python `s.endswith(pat)` on char lists. -/
def isSuffixL (pat l : List Char) : Bool :=
  isPrefixL pat.reverse l.reverse

/-- Model of the Python substring test `pat in s` on strings. -/
def strIn (pat s : String) : Bool := isSubL pat.toList s.toList

/-- Model of Python `s.endswith(pat)` on strings. -/
def strEndsWith (s pat : String) : Bool := isSuffixL pat.toList s.toList

/-- Everything after the last occurrence of `c` (the whole list if `c` absent).
Model of Python `s.rsplit(c, 1)[-1]` / `s.rpartition(c)[2]`. -/
def afterLastChar (c : Char) (l : List Char) : List Char :=
  (l.reverse.takeWhile (fun d => d != c)).reverse

/-- Split at the first occurrence of `c`: returns (before, after) with `c`
dropped; `(l, [])` when `c` is absent.  Model of Python `s.split(c, 1)`. -/
def splitFirst (c : Char) (l : List Char) : List Char × List Char :=
  let before := l.takeWhile (fun d => d != c)
  let rest := l.drop before.length
  match rest with
  | [] => (before, [])
  | _ :: tail => (before, tail)

/-- ASCII lowercase of a char list, model of Python `s.lower()` for the ASCII
inputs these URL routines deal with. -/
def lowerL (l : List Char) : List Char := l.map Char.toLower

/-! ## Model of CPython `urllib.parse`

The repository calls the standard library's `urlparse`.  That function is not
part of the repository, so it is modelled here from CPython's
`urllib/parse.py` (`urlsplit`, `_splitparams`, `_hostinfo`): stripping of
leading C0-control/space characters, removal of the unsafe bytes tab/CR/LF,
scheme detection, netloc splitting with the `Invalid IPv6 URL` `ValueError`
on an unbalanced square bracket in the netloc, fragment and query splitting,
path-parameter splitting for the `uses_params` schemes, and the `hostname`
accessor.  The `_check_bracketed_host`/`_checknetloc` validations (balanced
bracketed hosts and non-ASCII netlocs, version-dependent corner cases) are
not modelled. -/

structure UrlParts where
  scheme : String
  netloc : String
  path : String
  query : String
  fragment : String
deriving DecidableEq

/-- CPython `_WHATWG_C0_CONTROL_OR_SPACE` membership: C0 control characters
and the space character, stripped from the front of the URL. -/
def isC0ControlOrSpace (c : Char) : Bool := c.toNat ≤ 32

/-- CPython `uses_params`: the schemes for which `urlparse` splits
`;parameters` off the path. -/
def usesParams : List String :=
  ["", "ftp", "hdl", "prospero", "http", "imap", "https", "shttp", "rtsp",
   "rtsps", "rtspu", "sip", "sips", "mms", "sftp", "tel"]

/-- Chars CPython allows inside a URL scheme after the first letter. -/
def schemeChar (c : Char) : Bool :=
  c.isAlpha || c.isDigit || c == '+' || c == '-' || c == '.'

/-- Scheme detection of CPython `urlsplit`: split `scheme:rest` when the part
before the first colon is a well-formed scheme. -/
def splitScheme (l : List Char) : List Char × List Char :=
  let before := l.takeWhile (fun d => d != ':')
  if before.length < l.length then
    -- a colon exists at index `before.length`
    match before with
    | [] => ([], l)
    | c0 :: _ =>
      if c0.isAlpha && before.all schemeChar then
        (lowerL before, l.drop (before.length + 1))
      else ([], l)
  else ([], l)

/-- CPython `urlsplit` on char lists; `Except.error` models the
`ValueError("Invalid IPv6 URL")` raise. -/
def urlsplitL (l : List Char) : Except String (List Char × List Char × List Char × List Char × List Char) :=
  let u0 := (l.dropWhile isC0ControlOrSpace).filter
    (fun c => !(c == '\t' || c == '\r' || c == '\n'))
  let (scheme, rest) := splitScheme u0
  let (netloc, rest2) :=
    if isPrefixL ['/', '/'] rest then
      let after := rest.drop 2
      let nl := after.takeWhile (fun c => !(c == '/' || c == '?' || c == '#'))
      (nl, after.drop nl.length)
    else ([], rest)
  if (netloc.contains '[' && !(netloc.contains ']'))
      || (netloc.contains ']' && !(netloc.contains '[')) then
    .error "Invalid IPv6 URL"
  else
    let (beforeFrag, frag) := splitFirst '#' rest2
    let (path, query) := splitFirst '?' beforeFrag
    .ok (scheme, netloc, path, query, frag)

/-- CPython `_splitparams`: strip `;params` from the last path segment. -/
def splitParams (p : List Char) : List Char :=
  if p.contains ';' then
    if p.contains '/' then
      -- search for ';' only in the last segment
      let lastSeg := (p.reverse.takeWhile (fun d => d != '/')).reverse
      if lastSeg.contains ';' then
        let keepInSeg := lastSeg.takeWhile (fun d => d != ';')
        p.take (p.length - lastSeg.length) ++ keepInSeg
      else p
    else p.takeWhile (fun d => d != ';')
  else p

/-- Model of CPython `urlparse` (i.e. `urlsplit` plus parameter splitting). -/
def pyUrlparse (url : String) : Except String UrlParts :=
  match urlsplitL url.toList with
  | .error e => .error e
  | .ok (scheme, netloc, path, query, frag) =>
    .ok { scheme := ⟨scheme⟩, netloc := ⟨netloc⟩,
          path := ⟨if usesParams.contains ⟨scheme⟩ then splitParams path else path⟩,
          query := ⟨query⟩, fragment := ⟨frag⟩ }

/-- Model of CPython's `SplitResult.hostname` accessor combined with the
source's `(parsed.hostname or "")`: userinfo stripped, bracketed hosts kept
without brackets, port stripped, lowercased except for an IPv6 zone id
(the part after the first `%`, which `hostname` leaves untouched); empty
string when absent. -/
def UrlParts.hostnameOrEmpty (u : UrlParts) : String :=
  let hi := afterLastChar '@' u.netloc.toList
  let host :=
    if hi.contains '[' then
      ((hi.dropWhile (fun d => d != '[')).drop 1).takeWhile (fun d => d != ']')
    else hi.takeWhile (fun d => d != ':')
  let beforeZone := host.takeWhile (fun d => d != '%')
  ⟨lowerL beforeZone ++ host.drop beforeZone.length⟩

/-! ## `backend/media_source.py` -/

/-- `MediaSource` dataclass from `media_source.py`. -/
structure MediaSource where
  url : String
  provider : String
  content_type : String
  display_name : String
deriving DecidableEq

/-- `AUDIO_EXTENSIONS` from `media_source.py` (the identical set appears in
`podcast_resolver.py`). -/
def AUDIO_EXTENSIONS : List String :=
  [".mp3", ".m4a", ".aac", ".ogg", ".opus", ".wav", ".flac", ".m4b"]

/-- `PODCAST_HOSTS` from `media_source.py`, in insertion (iteration) order. -/
def PODCAST_HOSTS : List (String × String) :=
  [("podcasts.apple.com", "Apple Podcasts"),
   ("open.spotify.com", "Spotify"),
   ("anchor.fm", "Anchor"),
   ("castbox.fm", "Castbox"),
   ("podbean.com", "Podbean")]

/-- The `for podcast_host, display_name in PODCAST_HOSTS.items()` loop of
`resolve_media_source`. -/
def findPodcastHost (hostname : String) : Option (String × String) :=
  PODCAST_HOSTS.find? (fun p =>
    hostname == p.1 || strEndsWith hostname ("." ++ p.1))

/-- The classification chain of `resolve_media_source` (`media_source.py`
52-112), after the URL has been parsed: first match wins. -/
def classifyParsed (url : String) (parsed : UrlParts) : MediaSource :=
  let hostname : String := ⟨lowerL parsed.hostnameOrEmpty.toList⟩
  let path : String := ⟨lowerL parsed.path.toList⟩
  let afterDot := if path.toList.contains '.' then afterLastChar '.' path.toList else []
  let sfx : String := if afterDot.isEmpty then "" else ⟨'.' :: afterDot⟩
  if AUDIO_EXTENSIONS.contains sfx then
    { url := url, provider := if hostname == "" then "audio" else hostname,
      content_type := "podcast", display_name := "播客音频" }
  else if sfx == ".rss" || sfx == ".xml" || strIn "rss" path || strIn "feed" path then
    { url := url, provider := if hostname == "" then "rss" else hostname,
      content_type := "podcast", display_name := "播客RSS" }
  else if strIn "xiaoyuzhoufm.com" hostname && strIn "/episode/" path then
    { url := url, provider := "xiaoyuzhou",
      content_type := "podcast", display_name := "小宇宙播客" }
  else
    match findPodcastHost hostname with
    | some (host, dn) =>
      { url := url, provider := host, content_type := "podcast", display_name := dn }
    | none =>
      if strEndsWith hostname "youtube.com" || hostname == "youtu.be" then
        { url := url, provider := "youtube", content_type := "video", display_name := "YouTube" }
      else if strIn "bilibili.com" hostname then
        { url := url, provider := "bilibili", content_type := "video", display_name := "Bilibili" }
      else
        { url := url, provider := if hostname == "" then "generic" else hostname,
          content_type := "video", display_name := "视频" }

/-- `resolve_media_source` from `media_source.py` lines 36-112.  The
`ValueError` raises (empty URL, and any raise out of `urlparse`) are modelled
as `Except.error`. -/
def resolve_media_source (url : String) : Except String MediaSource :=
  if url == "" then .error "URL不能为空"
  else
    match pyUrlparse url with
    | .error e => .error e
    | .ok parsed => .ok (classifyParsed url parsed)

/-! ## Model of CPython `pathlib.PurePosixPath.name` / `.suffix`

`main.py` computes `Path(parsed_path).suffix`.  `pathlib` is standard library
code, modelled here: the name is the last path component after dropping empty
and `"."` components, and the suffix is `name[i:]` for `i = name.rfind('.')`
when `0 < i < len(name) - 1`, else `""`. -/

/-- `pathlib.Path(p).name` (POSIX flavour). -/
def pyPathName (p : List Char) : List Char :=
  let comps := (p.splitOn '/').filter (fun c => !(c.isEmpty || c == ['.']))
  comps.getLastD []

/-- Occurrence index of the last `'.'`, as `name.rfind('.')` (−1 → `none`). -/
def rfindDot (name : List Char) : Option Nat :=
  let revIdx := name.reverse.takeWhile (fun c => c != '.')
  if revIdx.length == name.length then none
  else some (name.length - revIdx.length - 1)

/-- `pathlib.Path(p).suffix` (POSIX flavour). -/
def pyPathLastExt (p : List Char) : List Char :=
  let name := pyPathName p
  match rfindDot name with
  | none => []
  | some i => if 0 < i && i < name.length - 1 then name.drop i else []

/-- The `is_audio_or_feed` test of `process_video_task` (`main.py` 354-362):
decides whether a podcast-resolution failure is fatal.  The `urlparse` call
cannot raise here because the task's URL already went through
`resolve_media_source` at submission; the error branch returns `false` and is
unreachable for task URLs. -/
def is_audio_or_feed (url : String) : Bool :=
  match pyUrlparse url with
  | .error _ => false
  | .ok parsed =>
    let parsedPath := lowerL parsed.path.toList
    let sfx : String := ⟨pyPathLastExt parsedPath⟩
    AUDIO_EXTENSIONS.contains sfx || sfx == ".rss" || sfx == ".xml"
      || isSubL "rss".toList parsedPath || isSubL "feed".toList parsedPath

/-! ## `backend/podcast_resolver.py`

The XML tree that `xml.etree.ElementTree.fromstring` produces is modelled by
the inductive `Element` (tag, attributes, text, children); `element.iter()`
is the preorder traversal `Element.iterList`.  `_parse_feed` and its helpers
are translated on that tree; the `ET.ParseError` branch for malformed XML is
handled by the `parse_feed_text` wrapper whose input is the parse outcome. -/

/-- `PodcastEpisode` dataclass from `podcast_resolver.py`. -/
structure PodcastEpisode where
  audio_url : String
  title : String
  episode_url : Option String
  feed_url : Option String
  mime_type : Option String
deriving DecidableEq

/-- A parsed XML element: tag, attribute list, text (empty string models
`None`), children in document order. -/
inductive Element where
  | mk (tag : String) (attrs : List (String × String)) (text : String)
       (children : List Element)

/-- Element tag. -/
def Element.tag : Element → String
  | .mk t _ _ _ => t

/-- Element attribute list. -/
def Element.attrs : Element → List (String × String)
  | .mk _ a _ _ => a

/-- Element text (empty models Python `None`). -/
def Element.text : Element → String
  | .mk _ _ x _ => x

/-- Element children in document order. -/
def Element.children : Element → List Element
  | .mk _ _ _ cs => cs

mutual
/-- `element.iter()`: the element followed by its descendants in document
(preorder) order. -/
def Element.iterList : Element → List Element
  | .mk t a x cs => .mk t a x cs :: iterForest cs

/-- Preorder traversal of a list of sibling elements. -/
def iterForest : List Element → List Element
  | [] => []
  | c :: cs => c.iterList ++ iterForest cs
end

/-- `element.attrib.get(k)`. -/
def attrGet (e : Element) (k : String) : Option String :=
  (e.attrs.find? (fun p => p.1 == k)).map (fun p => p.2)

/-- `_strip_namespace` from `podcast_resolver.py` 409-422. -/
def strip_namespace (tag : String) : String :=
  if tag.toList.contains '}' then ⟨(tag.toList.dropWhile (fun c => c != '}')).drop 1⟩
  else tag

/-- `_is_audio_content_type` from `podcast_resolver.py` 354-367. -/
def is_audio_content_type (content_type : String) : Bool :=
  isPrefixL "audio/".toList (lowerL content_type.toList)

/-- `_looks_like_audio_url` from `podcast_resolver.py` 370-387; the
`urlparse` call can raise (modelled by `.error`). -/
def looks_like_audio_url (url : String) : Except String Bool :=
  match pyUrlparse url with
  | .error e => .error e
  | .ok parsed =>
    .ok (AUDIO_EXTENSIONS.any (fun ext => isSuffixL ext.toList (lowerL parsed.path.toList)))

/-- Python whitespace test (ASCII model of `str.strip()` / `\s`). -/
def pyIsSpace (c : Char) : Bool :=
  c == ' ' || c == '\t' || c == '\n' || c == '\r' || c == '\x0b' || c == '\x0c'

/-- Model of Python `str.strip()`. -/
def pyStrip (l : List Char) : List Char :=
  ((l.dropWhile pyIsSpace).reverse.dropWhile pyIsSpace).reverse

/-- Strip one trailing `.extension` (regex `\.[a-z0-9]+$`, case-insensitive),
as in `_guess_title_from_url`. -/
def stripLastExt (l : List Char) : List Char :=
  let rev := l.reverse
  let ext := rev.takeWhile Char.isAlphanum
  if ext.isEmpty then l
  else match rev.drop ext.length with
    | '.' :: restRev => restRev.reverse
    | _ => l

/-- `_guess_title_from_url` from `podcast_resolver.py` 390-406; calls
`urlparse` (can raise). -/
def guess_title_from_url (url : String) : Except String String :=
  match pyUrlparse url with
  | .error e => .error e
  | .ok parsed =>
    let fname := afterLastChar '/' ((parsed.path.toList.reverse.dropWhile (fun c => c == '/')).reverse)
    let title := stripLastExt fname
    .ok (if title.isEmpty then "untitled" else ⟨title⟩)

/-- `_get_child_text` from `podcast_resolver.py` 265-282: first direct child
with the given (namespace-stripped) tag and truthy text. -/
def get_child_text (e : Element) (name : String) : Option String :=
  ((e.children.find? (fun c => strip_namespace c.tag == name && c.text != "")).map
    (fun c => (⟨pyStrip c.text.toList⟩ : String)))

/-- `_get_episode_link` from `podcast_resolver.py` 241-262. -/
def get_episode_link (item : Element) : Option String :=
  match get_child_text item "link" with
  | some s => if s != "" then some s else
      (item.iterList.findSome? (fun e =>
        if strip_namespace e.tag == "link" then
          match attrGet e "href" with
          | some h => if h != "" then some h else none
          | none => none
        else none))
  | none =>
      item.iterList.findSome? (fun e =>
        if strip_namespace e.tag == "link" then
          match attrGet e "href" with
          | some h => if h != "" then some h else none
          | none => none
        else none)

/-- The per-element body of the `_extract_enclosure` loop
(`podcast_resolver.py` 221-237).  `.error` models a `ValueError` raised by
`_looks_like_audio_url`'s `urlparse` call on a malformed content URL. -/
def enclosureOfE (e : Element) : Except String (Option (String × Option String)) :=
  if strip_namespace e.tag == "enclosure" then
    match attrGet e "url" with
    | some u => if u != "" then .ok (some (u, attrGet e "type")) else .ok none
    | none => .ok none
  else if strip_namespace e.tag == "content" then
    match attrGet e "url" with
    | some u =>
      if u == "" then .ok none
      else
        match looks_like_audio_url u with
        | .error err => .error err
        | .ok b =>
          if b || is_audio_content_type ((attrGet e "type").getD "") then
            .ok (some (u, attrGet e "type"))
          else .ok none
    | none => .ok none
  else if strip_namespace e.tag == "link" && (attrGet e "rel" == some "enclosure") then
    match attrGet e "href" with
    | some u => if u != "" then .ok (some (u, attrGet e "type")) else .ok none
    | none => .ok none
  else .ok none

/-- The `for element in item.iter()` loop of `_extract_enclosure`. -/
def scanEnclosure : List Element → Except String (Option (String × Option String))
  | [] => .ok none
  | e :: rest =>
    match enclosureOfE e with
    | .error err => .error err
    | .ok (some r) => .ok (some r)
    | .ok none => scanEnclosure rest

/-- `_extract_enclosure` from `podcast_resolver.py` 208-238 (the `(None,
None)` fall-through is `.ok none`). -/
def extract_enclosure (item : Element) : Except String (Option (String × Option String)) :=
  scanEnclosure item.iterList

/-- The `item`/`entry` elements of the tree in document order
(`_parse_feed` lines 185-189). -/
def itemsOf (root : Element) : List Element :=
  root.iterList.filter (fun e =>
    strip_namespace e.tag == "item" || strip_namespace e.tag == "entry")

/-- The episode construction of the `_parse_feed` loop body (lines 195-203),
including the lazy `_get_child_text(...) or _guess_title_from_url(...)`
title logic. -/
def episodeFromItem (feed_url : String) (it : Element) (au : String)
    (mt : Option String) : Except String PodcastEpisode :=
  match get_child_text it "title" with
  | some t =>
    if t == "" then
      match guess_title_from_url au with
      | .error e => .error e
      | .ok g => .ok ⟨au, g, get_episode_link it, some feed_url, mt⟩
    else .ok ⟨au, t, get_episode_link it, some feed_url, mt⟩
  | none =>
    match guess_title_from_url au with
    | .error e => .error e
    | .ok g => .ok ⟨au, g, get_episode_link it, some feed_url, mt⟩

/-- The `for item in items` loop of `_parse_feed` (lines 191-205). -/
def find_episode (feed_url : String) : List Element → Except String PodcastEpisode
  | [] => .error "RSS中未找到可用的音频链接"
  | it :: rest =>
    match extract_enclosure it with
    | .error e => .error e
    | .ok none => find_episode feed_url rest
    | .ok (some (au, mt)) => episodeFromItem feed_url it au mt

/-- `_parse_feed` from `podcast_resolver.py` 165-205, on an already-parsed
tree. -/
def parse_feed (root : Element) (feed_url : String) : Except String PodcastEpisode :=
  find_episode feed_url (itemsOf root)

/-- `_parse_feed` including the `ET.fromstring` step: the XML parser is
external, so its outcome on the feed text is the `parsed` argument
(`.error` = `ET.ParseError`, caught at lines 179-183). -/
def parse_feed_text (parsed : Except String Element) (feed_url : String) :
    Except String PodcastEpisode :=
  match parsed with
  | .error _ => .error "播客RSS格式无法解析"
  | .ok root => parse_feed root feed_url

/-! Spec-side total companions for the C6 analysis: the same audio-detection
logic with `urlparse` failures read as `false`, used to phrase "the entry has
resolvable audio" independently of the exception path. -/

/-- Total reading of `_looks_like_audio_url` (parse failure ↦ `false`). -/
def looksAudioT (u : String) : Bool :=
  match looks_like_audio_url u with
  | .ok b => b
  | .error _ => false

/-- Total reading of the per-element enclosure check. -/
def enclosureOfT (e : Element) : Option (String × Option String) :=
  if strip_namespace e.tag == "enclosure" then
    match attrGet e "url" with
    | some u => if u != "" then some (u, attrGet e "type") else none
    | none => none
  else if strip_namespace e.tag == "content" then
    match attrGet e "url" with
    | some u =>
      if u == "" then none
      else if looksAudioT u || is_audio_content_type ((attrGet e "type").getD "") then
        some (u, attrGet e "type")
      else none
    | none => none
  else if strip_namespace e.tag == "link" && (attrGet e "rel" == some "enclosure") then
    match attrGet e "href" with
    | some u => if u != "" then some (u, attrGet e "type") else none
    | none => none
  else none

/-- Total first-enclosure scan. -/
def scanT (l : List Element) : Option (String × Option String) :=
  l.findSome? enclosureOfT

/-- "This `item`/`entry` yields resolvable audio" (spec 4.2a), total form. -/
def resolvableB (it : Element) : Bool :=
  (scanT it.iterList).isSome

/-- Total reading of `_guess_title_from_url` (parse failure ↦ `"untitled"`;
never hit under the parseability hypothesis). -/
def guessT (u : String) : String :=
  match guess_title_from_url u with
  | .ok t => t
  | .error _ => "untitled"

/-- The episode `_parse_feed` builds from a chosen item (spec 4.2a). -/
def episodeOfItem (it : Element) (feed_url : String) : PodcastEpisode :=
  match scanT it.iterList with
  | some (au, mt) =>
    { audio_url := au
      title := match get_child_text it "title" with
               | some t => if t == "" then guessT au else t
               | none => guessT au
      episode_url := get_episode_link it
      feed_url := some feed_url
      mime_type := mt }
  | none => ⟨"", "", none, none, none⟩

/-- All attribute values of an element survive `urlparse`. -/
def attrsOkB (e : Element) : Bool :=
  e.attrs.all (fun p => exceptIsOk (pyUrlparse p.2))

/-- All attribute values in an item's subtree survive `urlparse`. -/
def itemUrlsOk (it : Element) : Bool :=
  it.iterList.all attrsOkB

/-- All attribute values in every `item`/`entry` subtree survive `urlparse`. -/
def feedUrlsOk (root : Element) : Bool :=
  (itemsOf root).all itemUrlsOk

/-! ## `backend/video_processor.py` — duration integrity check

`VideoProcessor.download_and_convert` lines 98-126: after the download, the
audio duration is probed (`ffprobe`), compared with the source-reported
duration, and one repair pass (`ffmpeg` re-encode) is attempted on a large
relative mismatch.  The external tool invocations are parameters: `probed`
is the `ffprobe` result (`none` models any exception in the probe block,
which the code turns into `actual_duration = 0.0`), `repairOk` is whether
the `ffmpeg` repair `check_call` succeeds.  Float durations are modelled as
exact rationals.  The post-repair re-probe only feeds a log line and cannot
change the returned path (a re-probe failure lands in the same `except`
after `audio_file` was already reassigned), so it has no parameter. -/

/-- Result of the integrity-check section: the returned audio file path and
whether the repair pass was triggered (the `logger.warning` branch). -/
def duration_check (expected : ℚ) (audio_file fixed_path : String)
    (probed : Option ℚ) (repairOk : Bool) : String × Bool :=
  if expected != 0 && probed.getD 0 != 0
      && |probed.getD 0 - expected| / expected > 1/10 then
    (if repairOk then fixed_path else audio_file, true)
  else (audio_file, false)

/-! ## `backend/main.py` — task store -/

/-- A task record, restricted to the persisted fields the claims are about
(all of them JSON-serializable; `finished_at` holds a wall-clock timestamp
string or `None`). -/
structure TaskRec where
  status : String
  progress : Nat
  url : String
  finished_at : Option String
  content_type : String
  provider : String
deriving DecidableEq

/-- The persisted task mapping (a Python dict in insertion order). -/
abbrev TasksMap := List (String × TaskRec)

/-- A JSON value (the fragment of JSON the task store uses). -/
inductive JVal where
  | jnull
  | jnum (n : Nat)
  | jstr (s : String)
  | jobj (fields : List (String × JVal))

/-- Lookup of an object field, as Python dict access. -/
def jlookup (k : String) (fields : List (String × JVal)) : Option JVal :=
  (fields.find? (fun p => p.1 == k)).map (fun p => p.2)

/-- The JSON object `json.dump` writes for one task record (the modelled
fields). -/
def encodeTask (t : TaskRec) : JVal :=
  .jobj [("status", .jstr t.status),
         ("progress", .jnum t.progress),
         ("url", .jstr t.url),
         ("finished_at", match t.finished_at with | none => .jnull | some s => .jstr s),
         ("content_type", .jstr t.content_type),
         ("provider", .jstr t.provider)]

/-- Reading one task record back from its JSON object (`json.load`). -/
def decodeTask : JVal → Option TaskRec
  | .jobj fs =>
    match jlookup "status" fs, jlookup "progress" fs, jlookup "url" fs,
        jlookup "finished_at" fs, jlookup "content_type" fs, jlookup "provider" fs with
    | some (.jstr st), some (.jnum pr), some (.jstr u), some fin,
        some (.jstr ct), some (.jstr pv) =>
      match fin with
      | .jnull => some ⟨st, pr, u, none, ct, pv⟩
      | .jstr s => some ⟨st, pr, u, some s, ct, pv⟩
      | _ => none
    | _, _, _, _, _, _ => none
  | _ => none

/-- The single JSON document holding the whole task mapping. -/
def encodeTasks (m : TasksMap) : JVal :=
  .jobj (m.map (fun p => (p.1, encodeTask p.2)))

/-- Decoding the entries of the task document, in order. -/
def decodeEntries : List (String × JVal) → Option TasksMap
  | [] => some []
  | (k, v) :: rest =>
    match decodeTask v, decodeEntries rest with
    | some t, some m => some ((k, t) :: m)
    | _, _ => none

/-- Decoding the whole task document. -/
def decodeTasks : JVal → Option TasksMap
  | .jobj fs => decodeEntries fs
  | _ => none

/-- The on-disk state the task store touches: the canonical `tasks.json` and
the temporary `tasks.json.tmp` path.  `none` = the path does not exist; the
content of a file is the JSON document it holds. -/
structure StoreFS where
  canonical : Option JVal
  tmp : Option JVal

/-- First half of `save_tasks` (`main.py` 101-103): `json.dump` the full
document to the temporary path. -/
def writeTmp (tasks_data : TasksMap) (fs : StoreFS) : StoreFS :=
  { fs with tmp := some (encodeTasks tasks_data) }

/-- Second half of `save_tasks` (`main.py` 104): `temp_path.replace(TASKS_FILE)`,
an atomic rename over the canonical path. -/
def renameTmp (fs : StoreFS) : StoreFS :=
  { canonical := fs.tmp, tmp := none }

/-- `save_tasks` from `main.py` 88-106: write temp, then rename. -/
def save_tasks (tasks_data : TasksMap) (fs : StoreFS) : StoreFS :=
  renameTmp (writeTmp tasks_data fs)

/-- `load_tasks` from `main.py` 71-86: `json.load` the canonical file; empty
mapping when it is missing or unreadable (the bare `except: pass`). -/
def load_tasks (fs : StoreFS) : TasksMap :=
  match fs.canonical with
  | none => []
  | some j => (decodeTasks j).getD []

/-! ## `backend/main.py` — submission endpoint -/

/-- The in-memory server state `process_video` reads and writes: the `tasks`
dict and the `processing_urls` set (kept as a duplicate-free list). -/
structure ServerState where
  tasks : TasksMap
  processing_urls : List String
deriving DecidableEq

/-- Outcome of `POST /api/process-video`.  `dedup` is the "该视频正在处理中"
response, `created` the fresh-task response; `httpError 500` models the outer
handler that catches every exception — including the `HTTPException(400)`
raised for an unclassifiable URL — and re-raises it as a 500. -/
inductive SubmitResponse where
  | dedup (task_id : String)
  | created (task_id : String)
  | httpError (status : Nat)
deriving DecidableEq

/-- The task record `process_video` initialises (`main.py` 272-288),
restricted to the modelled fields. -/
def initTask (url : String) (ms : MediaSource) : TaskRec :=
  { status := "processing", progress := 0, url := url, finished_at := none,
    content_type := ms.content_type, provider := ms.provider }

/-- `process_video` from `main.py` 244-301 as a state transformer.  `newId`
stands for the generated `uuid4` task id. -/
def process_video (st : ServerState) (url : String) (newId : String) :
    SubmitResponse × ServerState :=
  match (if st.processing_urls.contains url
         then st.tasks.find? (fun p => p.2.url == url) else none) with
  | some (tid, _) => (.dedup tid, st)
  | none =>
    match resolve_media_source url with
    | .error _ => (.httpError 500, st)
    | .ok ms =>
      (.created newId,
       { tasks := st.tasks ++ [(newId, initTask url ms)],
         processing_urls :=
           if st.processing_urls.contains url then st.processing_urls
           else st.processing_urls ++ [url] })

/-! ## `backend/main.py` — the orchestrated task (`process_video_task`)

Each `tasks[task_id].update(...)` + `_persist_task` + broadcast in
`process_video_task` (lines 303-569) writes one snapshot of the task record;
a run is modelled as the list of written snapshots.  The external
collaborators (podcast resolver, downloader, transcriber, optimizer,
translator, summarizer, artifact file writes) are parameters recording
success or a raised exception. -/

/-- One written snapshot of the task record (fields relevant to the
state-machine claims). -/
structure Snap where
  status : String
  progress : Nat
  finishedSet : Bool
deriving DecidableEq

/-- A mid-pipeline `status="processing"` snapshot. -/
def snapP (p : Nat) : Snap := ⟨"processing", p, false⟩

/-- The snapshot written by the outer `except` handler (`main.py` 563-568):
status and message change, progress and `finished_at` do not. -/
def snapE (p : Nat) : Snap := ⟨"error", p, false⟩

/-- The completion snapshot (`main.py` 510-527): progress 100 and a non-null
`finished_at`. -/
def snapDone : Snap := ⟨"completed", 100, true⟩

/-- Outcomes of the external collaborators used by one run of
`process_video_task`.  An `.error` value is a raised exception. -/
structure RunEnv where
  resolveEpisode : Except String String
  download : Except String Unit
  transcribe : Except String Unit
  rawSaveOk : Bool
  optimize : Except String Unit
  shouldTranslate : Bool
  translate : Except String Unit
  summarize : Except String Unit
  scriptWriteOk : Bool
  summaryWriteOk : Bool

/-- What a run of `process_video_task` produced: the snapshots written in
order, and the URL passed to `video_processor.download_and_convert` (`none`
when the pipeline died before reaching the download). -/
structure RunResult where
  trace : List Snap
  downloadedUrl : Option String
deriving DecidableEq

/-- Tail of the pipeline from the `progress 80` update (`main.py` 474-541):
summary generation, artifact writes, completion. -/
def runFrom80 (rurl : String) (pre : List Snap) (env : RunEnv) : RunResult :=
  let pre := pre ++ [snapP 80]
  match env.summarize with
  | .error _ => ⟨pre ++ [snapE 80], some rurl⟩
  | .ok _ =>
    if env.scriptWriteOk then
      if env.summaryWriteOk then ⟨pre ++ [snapDone], some rurl⟩
      else ⟨pre ++ [snapE 80], some rurl⟩
    else ⟨pre ++ [snapE 80], some rurl⟩

/-- Pipeline from a successful download (`main.py` 391-507): metadata
update (35), transcription (40), archival raw transcript (no progress
change, only on a successful write), optimization (55), conditional
translation (70), then `runFrom80`. -/
def runFromDownload (rurl : String) (pre : List Snap) (env : RunEnv) : RunResult :=
  let pre := pre ++ [snapP 35, snapP 40]
  match env.transcribe with
  | .error _ => ⟨pre ++ [snapE 40], some rurl⟩
  | .ok _ =>
    let pre := if env.rawSaveOk then pre ++ [snapP 40] else pre
    let pre := pre ++ [snapP 55]
    match env.optimize with
    | .error _ => ⟨pre ++ [snapE 55], some rurl⟩
    | .ok _ =>
      if env.shouldTranslate then
        let pre := pre ++ [snapP 70]
        match env.translate with
        | .error _ => ⟨pre ++ [snapE 70], some rurl⟩
        | .ok _ => runFrom80 rurl pre env
      else runFrom80 rurl pre env

/-- `process_video_task` from `main.py` 303-569.  `content_type` is
`media_source.content_type`.  The podcast-resolution failure handling
(lines 351-365) uses `is_audio_or_feed` on the original URL; a non-fatal
failure falls back to `resolved_url = url`. -/
def process_video_task (url content_type : String) (env : RunEnv) : RunResult :=
  let pre := [snapP 10, snapP 15]
  if content_type == "podcast" then
    let pre := pre ++ [snapP 18]
    match env.resolveEpisode with
    | .ok audio =>
      match env.download with
      | .error _ => ⟨pre ++ [snapE 18], some audio⟩
      | .ok _ => runFromDownload audio pre env
    | .error _ =>
      if is_audio_or_feed url then ⟨pre ++ [snapE 18], none⟩
      else
        match env.download with
        | .error _ => ⟨pre ++ [snapE 18], some url⟩
        | .ok _ => runFromDownload url pre env
  else
    match env.download with
    | .error _ => ⟨pre ++ [snapE 15], some url⟩
    | .ok _ => runFromDownload url pre env

/-- The snapshot sequence a task's record goes through, starting from the
record created by `process_video` (status `processing`, progress 0,
`finished_at = None`, `main.py` 272-289). -/
def submissionTrace (url content_type : String) (env : RunEnv) : List Snap :=
  snapP 0 :: (process_video_task url content_type env).trace

/-! ## `backend/main.py` — filenames -/

/-- Python `\w` (ASCII model of the word-character class). -/
def pyIsWordChar (c : Char) : Bool := c.isAlphanum || c == '_'

/-- First step of `_sanitize_title_for_filename`:
`re.sub(r"[^\w\-\s]", "", title)`. -/
def keepWordDashSpace (l : List Char) : List Char :=
  l.filter (fun c => pyIsWordChar c || c == '-' || pyIsSpace c)

/-- Second step: `re.sub(r"\s+", "_", safe)` — each maximal whitespace run
becomes one underscore. -/
def collapseWs : List Char → List Char
  | [] => []
  | [c] => if pyIsSpace c then ['_'] else [c]
  | c :: d :: rest =>
    if pyIsSpace c then
      (if pyIsSpace d then collapseWs (d :: rest) else '_' :: collapseWs (d :: rest))
    else c :: collapseWs (d :: rest)

/-- Member of the `strip("._-")` set. -/
def isStripChar (c : Char) : Bool := c == '.' || c == '_' || c == '-'

/-- Python `s.strip("._-")`. -/
def stripDotDashUnderscore (l : List Char) : List Char :=
  ((l.dropWhile isStripChar).reverse.dropWhile isStripChar).reverse

/-- `_sanitize_title_for_filename` from `main.py` 228-237. -/
def sanitize_title_for_filename (title : String) : String :=
  if title == "" then "untitled"
  else
    let safe := stripDotDashUnderscore (collapseWs (keepWordDashSpace title.toList))
    let clipped := safe.take 80
    if clipped.isEmpty then "untitled" else ⟨clipped⟩

/-- `short_id = task_id.replace("-", "")[:6]` (`main.py` 410). -/
def shortIdOf (task_id : String) : String :=
  ⟨(task_id.toList.filter (fun c => c != '-')).take 6⟩

/-- The artifact filename pattern the orchestrator builds (`main.py` 415,
467, 493, 504): `f"{kind}_{safe_title}_{short_id}.md"`. -/
def artifactFilename (kind safeTitle shortId : String) : String :=
  kind ++ "_" ++ safeTitle ++ "_" ++ shortId ++ ".md"

/-- `_validate_history_filename` from `main.py` 182-196: `true` = no
`HTTPException(400)` raised. -/
def validate_history_filename (filename : String) : Bool :=
  if filename == "" then true
  else !(strIn ".." filename || strIn "/" filename || strIn "\\" filename)

/-! ## `backend/main.py` — download endpoint -/

/-- Outcome of `GET /api/download/{filename}`. -/
inductive DlOutcome where
  | badRequest
  | notFound
  | ok
deriving DecidableEq

/-- `download_file` from `main.py` 783-810.  `fileExists` is the
`file_path.exists()` oracle; the second component records whether the
filesystem existence test was reached. -/
def download_file (filename : String) (fileExists : Bool) : DlOutcome × Bool :=
  if !(strEndsWith filename ".md") then (.badRequest, false)
  else if strIn ".." filename || strIn "/" filename || strIn "\\" filename then
    (.badRequest, false)
  else if fileExists then (.ok, true) else (.notFound, true)

/-! # Theorems -/

/-- Spec 6 / 8: a download filename is rejected when it does not end in
`.md` or contains `..`, `/` or `\`. -/
def specBadFilename (filename : String) : Bool :=
  !(strEndsWith filename ".md") || strIn ".." filename || strIn "/" filename
    || strIn "\\" filename

/-- C9: the download endpoint answers 400 exactly for filenames that do not
end in `.md` or contain `..`, `/` or `\`; such requests never reach the
file-existence test (second component `false`), and the response is
independent of whether the file exists; all other filenames reach the
existence test. -/
theorem download_file_rejects_bad_filenames (filename : String) (fileExists : Bool) :
    download_file filename fileExists
      = (if specBadFilename filename then (.badRequest, false)
         else if fileExists then (.ok, true) else (.notFound, true)) := by
  unfold download_file specBadFilename
  cases hmd : strEndsWith filename ".md" <;>
    cases hdd : strIn ".." filename <;>
      cases hs : strIn "/" filename <;>
        cases hb : strIn "\\" filename <;>
          simp [hmd, hdd, hs, hb]

theorem decodeTask_encodeTask (t : TaskRec) : decodeTask (encodeTask t) = some t := by
  cases t with
  | mk st pr u fin ct pv => cases fin <;> rfl

theorem decodeTasks_encodeTasks (m : TasksMap) : decodeTasks (encodeTasks m) = some m := by
  induction m with
  | nil => rfl
  | cons p rest ih =>
    obtain ⟨k, t⟩ := p
    have ih' : decodeEntries (rest.map (fun q => (q.1, encodeTask q.2))) = some rest := ih
    show decodeEntries ((k, encodeTask t) :: rest.map (fun q => (q.1, encodeTask q.2)))
      = some ((k, t) :: rest)
    simp [decodeEntries, decodeTask_encodeTask t, ih']

/-- C4: reloading the store after `save_tasks m` decodes field-for-field to
exactly `m`; the JSON document is written to the temporary path first
(leaving the canonical file with the old complete document), and the rename
then installs the new complete document, so the canonical path always holds
one of the two. -/
theorem save_tasks_roundtrip_atomic (m : TasksMap) (fs : StoreFS) :
    load_tasks (save_tasks m fs) = m
    ∧ (writeTmp m fs).canonical = fs.canonical
    ∧ (renameTmp (writeTmp m fs)).canonical = some (encodeTasks m)
    ∧ save_tasks m fs = renameTmp (writeTmp m fs) := by
  refine ⟨?_, rfl, rfl, rfl⟩
  show ((decodeTasks (encodeTasks m)).getD []) = m
  rw [decodeTasks_encodeTasks]
  rfl

/-- C7: the repair pass runs iff both durations are non-zero and the
relative difference exceeds 10%; the repaired path is returned exactly when
the repair was triggered and the repair command succeeded, otherwise the
original file is returned (repair failure is non-fatal). -/
theorem duration_check_spec (expected : ℚ) (audio_file fixed_path : String)
    (probed : Option ℚ) (repairOk : Bool) :
    ((duration_check expected audio_file fixed_path probed repairOk).2 = true
      ↔ (expected ≠ 0 ∧ probed.getD 0 ≠ 0
          ∧ |probed.getD 0 - expected| / expected > 1/10))
    ∧ (duration_check expected audio_file fixed_path probed repairOk).1
        = (if (duration_check expected audio_file fixed_path probed repairOk).2
             && repairOk then fixed_path else audio_file) := by
  unfold duration_check
  split
  · next hcond =>
      have hprops : expected ≠ 0 ∧ probed.getD 0 ≠ 0
          ∧ |probed.getD 0 - expected| / expected > 1/10 := by
        simp only [Bool.and_eq_true, bne_iff_ne, ne_eq, decide_eq_true_eq] at hcond
        exact ⟨hcond.1.1, hcond.1.2, hcond.2⟩
      refine ⟨⟨fun _ => hprops, fun _ => rfl⟩, ?_⟩
      cases repairOk <;> rfl
  · next hcond =>
      refine ⟨⟨fun hc => absurd hc (by simp), fun hp => ?_⟩, rfl⟩
      exfalso
      have ht : (expected != 0 && (probed.getD 0 != 0)
          && decide (|probed.getD 0 - expected| / expected > 1/10)) = true := by
        simp only [Bool.and_eq_true, bne_iff_ne, ne_eq, decide_eq_true_eq]
        exact ⟨⟨hp.1, hp.2.1⟩, hp.2.2⟩
      exact hcond ht

/-- C7 witness: the spec's 50%-duration scenario — probed duration half of
the reported one triggers the repair, and a successful repair makes the
repaired file the returned path. -/
theorem duration_check_spec_witness :
    duration_check 100 "audio_x.m4a" "audio_x_fixed.m4a" (some 50) true
      = ("audio_x_fixed.m4a", true) := by
  have h := duration_check_spec 100 "audio_x.m4a" "audio_x_fixed.m4a" (some 50) true
  have h2 : (duration_check 100 "audio_x.m4a" "audio_x_fixed.m4a" (some 50) true).2 = true :=
    h.1.mpr (by norm_num)
  have h1 := h.2
  rw [h2] at h1
  simp only [Bool.and_self, if_true] at h1
  exact Prod.ext h1 h2

/-- C1: when a URL is in the in-flight set and some task for it exists, a
second submission returns the id of an existing task for that URL and
leaves the server state (in particular the task mapping) unchanged. -/
theorem process_video_dedup (st : ServerState) (url newId : String)
    (hin : st.processing_urls.contains url = true)
    (hex : ∃ p, p ∈ st.tasks ∧ (p : String × TaskRec).2.url = url) :
    (process_video st url newId).2 = st
    ∧ ∃ tid t, (tid, t) ∈ st.tasks ∧ t.url = url
        ∧ (process_video st url newId).1 = .dedup tid := by
  obtain ⟨p, hp, hpu⟩ := hex
  have hfind : (st.tasks.find? (fun q => q.2.url == url)).isSome := by
    rw [List.find?_isSome]
    exact ⟨p, hp, by simp [hpu]⟩
  obtain ⟨q, hq⟩ := Option.isSome_iff_exists.mp hfind
  obtain ⟨tid0, t0⟩ := q
  have hqmem : (tid0, t0) ∈ st.tasks := List.mem_of_find?_eq_some hq
  have hqu : t0.url = url := by
    have hqp := List.find?_some hq
    simpa using hqp
  have hres : process_video st url newId = (.dedup tid0, st) := by
    simp only [process_video, hin, if_true, hq]
  rw [hres]
  exact ⟨rfl, tid0, t0, hqmem, hqu, rfl⟩

/-- C1 witness: a concrete second submission of an in-flight URL is answered
with the existing task id and does not change the state. -/
theorem process_video_dedup_witness :
    (process_video
        { tasks := [("t1", initTask "https://youtu.be/a"
            { url := "https://youtu.be/a", provider := "youtube",
              content_type := "video", display_name := "YouTube" })],
          processing_urls := ["https://youtu.be/a"] }
        "https://youtu.be/a" "t2").2
      = { tasks := [("t1", initTask "https://youtu.be/a"
            { url := "https://youtu.be/a", provider := "youtube",
              content_type := "video", display_name := "YouTube" })],
          processing_urls := ["https://youtu.be/a"] }
    ∧ (process_video
        { tasks := [("t1", initTask "https://youtu.be/a"
            { url := "https://youtu.be/a", provider := "youtube",
              content_type := "video", display_name := "YouTube" })],
          processing_urls := ["https://youtu.be/a"] }
        "https://youtu.be/a" "t2").1 = .dedup "t1" := by
  refine ⟨(process_video_dedup _ "https://youtu.be/a" "t2" (by decide) ?_).1, by decide⟩
  exact ⟨("t1", initTask "https://youtu.be/a"
            { url := "https://youtu.be/a", provider := "youtube",
              content_type := "video", display_name := "YouTube" }),
         by simp, rfl⟩

/-- C8 counterexample: `"http://["` is a non-empty URL on which
`resolve_media_source` raises (CPython `urlsplit` raises
`ValueError("Invalid IPv6 URL")` for an unbalanced bracket in the netloc),
refuting "raises if and only if the URL is empty". -/
theorem resolve_media_source_raises_on_nonempty :
    ("http://[" ≠ "") ∧ exceptIsOk (resolve_media_source "http://[") = false := by
  constructor
  · decide
  · decide

/-- C8 (amended): `resolve_media_source` raises exactly when the URL is
empty or `urlparse` itself raises; for every other URL it returns a
`MediaSource` (and it is a pure function of the URL — no I/O, deterministic
by construction). -/
theorem resolve_media_source_ok_iff (url : String) :
    exceptIsOk (resolve_media_source url) = true
      ↔ (url ≠ "" ∧ exceptIsOk (pyUrlparse url) = true) := by
  unfold resolve_media_source
  by_cases hu : url = ""
  · subst hu
    simp [exceptIsOk]
  · have hu' : (url == "") = false := by simp [hu]
    rw [hu']
    simp only [Bool.false_eq_true, if_false]
    cases hp : pyUrlparse url with
    | error e => simp [exceptIsOk]
    | ok parsed => simp [exceptIsOk, hu]

/-- C8 witness: a concrete non-empty, parseable URL is classified without
raising. -/
theorem resolve_media_source_ok_iff_witness :
    exceptIsOk (resolve_media_source "https://youtu.be/abc") = true :=
  (resolve_media_source_ok_iff "https://youtu.be/abc").mpr ⟨by decide, by decide⟩

/-! ## Trace invariants (C2, C3) -/

/-- The progress checkpoints the orchestrator ever writes. -/
def allowedProgressN : List Nat := [0, 10, 15, 18, 35, 40, 55, 70, 80, 100]

/-- The C2/C3 state-machine invariant of a snapshot sequence: progress is
non-decreasing, every non-final snapshot is still `processing` (so a
terminal status is never left), statuses range over the three values, every
progress value is a known checkpoint, and `finished_at` is set exactly on
`completed` snapshots. -/
def TraceGood (tr : List Snap) : Prop :=
  List.Chain' (fun a b => a.progress ≤ b.progress) tr
  ∧ (∀ s ∈ tr.dropLast, s.status = "processing")
  ∧ (∀ s ∈ tr,
      (s.status = "processing" ∨ s.status = "completed" ∨ s.status = "error")
      ∧ s.progress ∈ allowedProgressN
      ∧ (s.finishedSet = true ↔ s.status = "completed"))

/-- Invariant of an unfinished run prefix `pre` (snapshots written so far,
excluding the creation snapshot) whose last written progress is `p`. -/
def PreOk (pre : List Snap) (p : Nat) : Prop :=
  (∀ s ∈ pre, s.status = "processing" ∧ s.finishedSet = false
      ∧ s.progress ∈ allowedProgressN)
  ∧ List.Chain' (fun a b => a.progress ≤ b.progress) (snapP 0 :: pre)
  ∧ (snapP 0 :: pre).getLast? = some (snapP p)
  ∧ p ∈ allowedProgressN

theorem allowedProgress_le_100 : ∀ x ∈ allowedProgressN, x ≤ 100 := by decide

theorem preOk_snoc {pre : List Snap} {p : Nat} (h : PreOk pre p) {q : Nat}
    (hpq : p ≤ q) (hq : q ∈ allowedProgressN) : PreOk (pre ++ [snapP q]) q := by
  obtain ⟨hmem, hchain, hlast, _⟩ := h
  refine ⟨?_, ?_, ?_, hq⟩
  · intro s hs
    rcases List.mem_append.mp hs with h1 | h2
    · exact hmem s h1
    · rw [List.mem_singleton.mp h2]
      exact ⟨rfl, rfl, hq⟩
  · rw [show snapP 0 :: (pre ++ [snapP q]) = (snapP 0 :: pre) ++ [snapP q] from rfl,
        List.chain'_append]
    refine ⟨hchain, List.chain'_singleton _, ?_⟩
    intro x hx y hy
    rw [hlast] at hx
    rw [Option.mem_def] at hx hy
    have hx' : x = snapP p := (Option.some.inj hx).symm
    have hy' : y = snapP q :=
      (Option.some.inj (show some (snapP q) = some y from hy)).symm
    rw [hx', hy']
    exact hpq
  · rw [show snapP 0 :: (pre ++ [snapP q]) = (snapP 0 :: pre) ++ [snapP q] from rfl,
        List.getLast?_concat]

theorem traceGood_final {pre : List Snap} {p : Nat} (h : PreOk pre p) (fin : Snap)
    (hstat : fin.status = "error" ∧ fin.finishedSet = false ∧ fin.progress = p
      ∨ fin = snapDone) :
    TraceGood ((snapP 0 :: pre) ++ [fin]) := by
  obtain ⟨hmem, hchain, hlast, hpal⟩ := h
  have hfinp : fin.progress ∈ allowedProgressN := by
    rcases hstat with ⟨_, _, hp⟩ | rfl
    · rw [hp]; exact hpal
    · decide
  have hple : p ≤ fin.progress := by
    rcases hstat with ⟨_, _, hp⟩ | rfl
    · rw [hp]
    · exact allowedProgress_le_100 p hpal
  refine ⟨?_, ?_, ?_⟩
  · rw [List.chain'_append]
    refine ⟨hchain, List.chain'_singleton _, ?_⟩
    intro x hx y hy
    rw [hlast] at hx
    rw [Option.mem_def] at hx hy
    have hx' : x = snapP p := (Option.some.inj hx).symm
    have hy' : y = fin :=
      (Option.some.inj (show some fin = some y from hy)).symm
    rw [hx', hy']
    exact hple
  · rw [List.dropLast_concat]
    intro s hs
    rcases List.mem_cons.mp hs with rfl | h1
    · rfl
    · exact (hmem s h1).1
  · intro s hs
    rcases List.mem_append.mp hs with h1 | h2
    · rcases List.mem_cons.mp h1 with rfl | h1'
      · exact ⟨Or.inl rfl, by decide, by decide⟩
      · obtain ⟨hs1, hs2, hs3⟩ := hmem s h1'
        refine ⟨Or.inl hs1, hs3, ?_⟩
        rw [hs1, hs2]
        constructor
        · intro hfalse; exact absurd hfalse (by decide)
        · intro hfalse; exact absurd hfalse (by decide)
    · rw [List.mem_singleton.mp h2]
      rcases hstat with ⟨he1, he2, _⟩ | rfl
      · refine ⟨Or.inr (Or.inr he1), hfinp, ?_⟩
        rw [he1, he2]
        constructor
        · intro hfalse; exact absurd hfalse (by decide)
        · intro hfalse; exact absurd hfalse (by decide)
      · exact ⟨Or.inr (Or.inl rfl), by decide, by decide⟩

theorem runFrom80_good (rurl : String) (env : RunEnv) {pre : List Snap} {p : Nat}
    (h : PreOk pre p) (hp : p ≤ 80) :
    TraceGood (snapP 0 :: (runFrom80 rurl pre env).trace) := by
  have h80 : PreOk (pre ++ [snapP 80]) 80 := preOk_snoc h hp (by decide)
  unfold runFrom80
  cases env.summarize with
  | error e =>
    simpa [List.cons_append, List.append_assoc] using
      traceGood_final h80 (snapE 80) (Or.inl ⟨rfl, rfl, rfl⟩)
  | ok u =>
    cases hsw : env.scriptWriteOk with
    | true =>
      cases hs2 : env.summaryWriteOk with
      | true =>
        simpa [List.cons_append, List.append_assoc] using
          traceGood_final h80 snapDone (Or.inr rfl)
      | false =>
        simpa [List.cons_append, List.append_assoc] using
          traceGood_final h80 (snapE 80) (Or.inl ⟨rfl, rfl, rfl⟩)
    | false =>
      simpa [List.cons_append, List.append_assoc] using
        traceGood_final h80 (snapE 80) (Or.inl ⟨rfl, rfl, rfl⟩)

theorem runFromDownload_good (rurl : String) (env : RunEnv) {pre : List Snap} {p : Nat}
    (h : PreOk pre p) (hp : p ≤ 35) :
    TraceGood (snapP 0 :: (runFromDownload rurl pre env).trace) := by
  have h35 : PreOk (pre ++ [snapP 35]) 35 := preOk_snoc h hp (by decide)
  have h40 : PreOk (pre ++ [snapP 35] ++ [snapP 40]) 40 := preOk_snoc h35 (by omega) (by decide)
  have hjoin : pre ++ [snapP 35, snapP 40] = pre ++ [snapP 35] ++ [snapP 40] := by
    rw [List.append_assoc]
    rfl
  unfold runFromDownload
  rw [hjoin]
  cases env.transcribe with
  | error e =>
    simpa [List.cons_append, List.append_assoc] using
      traceGood_final h40 (snapE 40) (Or.inl ⟨rfl, rfl, rfl⟩)
  | ok u =>
    cases hraw : env.rawSaveOk with
    | true =>
      have h40b : PreOk (pre ++ [snapP 35] ++ [snapP 40] ++ [snapP 40]) 40 :=
        preOk_snoc h40 (by omega) (by decide)
      have h55 : PreOk (pre ++ [snapP 35] ++ [snapP 40] ++ [snapP 40] ++ [snapP 55]) 55 :=
        preOk_snoc h40b (by omega) (by decide)
      simp only [if_true]
      cases env.optimize with
      | error e =>
        simpa [List.cons_append, List.append_assoc] using
          traceGood_final h55 (snapE 55) (Or.inl ⟨rfl, rfl, rfl⟩)
      | ok u2 =>
        cases htr : env.shouldTranslate with
        | true =>
          have h70 : PreOk (pre ++ [snapP 35] ++ [snapP 40] ++ [snapP 40]
              ++ [snapP 55] ++ [snapP 70]) 70 := preOk_snoc h55 (by omega) (by decide)
          simp only [if_true]
          cases env.translate with
          | error e =>
            simpa [List.cons_append, List.append_assoc] using
              traceGood_final h70 (snapE 70) (Or.inl ⟨rfl, rfl, rfl⟩)
          | ok u3 =>
            have hg := runFrom80_good rurl env h70 (by omega)
            simpa [List.cons_append, List.append_assoc] using hg
        | false =>
          have hg := runFrom80_good rurl env h55 (by omega)
          simpa [List.cons_append, List.append_assoc] using hg
    | false =>
      have h55 : PreOk (pre ++ [snapP 35] ++ [snapP 40] ++ [snapP 55]) 55 :=
        preOk_snoc h40 (by omega) (by decide)
      simp only [if_false]
      cases env.optimize with
      | error e =>
        simpa [List.cons_append, List.append_assoc] using
          traceGood_final h55 (snapE 55) (Or.inl ⟨rfl, rfl, rfl⟩)
      | ok u2 =>
        cases htr : env.shouldTranslate with
        | true =>
          have h70 : PreOk (pre ++ [snapP 35] ++ [snapP 40]
              ++ [snapP 55] ++ [snapP 70]) 70 := preOk_snoc h55 (by omega) (by decide)
          simp only [if_true]
          cases env.translate with
          | error e =>
            simpa [List.cons_append, List.append_assoc] using
              traceGood_final h70 (snapE 70) (Or.inl ⟨rfl, rfl, rfl⟩)
          | ok u3 =>
            have hg := runFrom80_good rurl env h70 (by omega)
            simpa [List.cons_append, List.append_assoc] using hg
        | false =>
          have hg := runFrom80_good rurl env h55 (by omega)
          simpa [List.cons_append, List.append_assoc] using hg

theorem chainP15 :
    List.Chain' (fun a b => a.progress ≤ b.progress) [snapP 0, snapP 10, snapP 15] := by
  simp [List.chain'_cons, snapP]

theorem chainP18 :
    List.Chain' (fun a b => a.progress ≤ b.progress)
      [snapP 0, snapP 10, snapP 15, snapP 18] := by
  simp [List.chain'_cons, snapP]

theorem submissionTrace_good (url content_type : String) (env : RunEnv) :
    TraceGood (submissionTrace url content_type env) := by
  have hpre15 : PreOk [snapP 10, snapP 15] 15 := ⟨by decide, chainP15, by decide, by decide⟩
  have hpre18 : PreOk [snapP 10, snapP 15, snapP 18] 18 :=
    ⟨by decide, chainP18, by decide, by decide⟩
  unfold submissionTrace process_video_task
  cases hct : content_type == "podcast" with
  | true =>
    simp only [if_true]
    cases env.resolveEpisode with
    | ok audio =>
      cases env.download with
      | error e =>
        simpa [List.cons_append, List.append_assoc] using
          traceGood_final hpre18 (snapE 18) (Or.inl ⟨rfl, rfl, rfl⟩)
      | ok u => exact runFromDownload_good audio env hpre18 (by omega)
    | error e =>
      cases haf : is_audio_or_feed url with
      | true =>
        simp only [if_true]
        simpa [List.cons_append, List.append_assoc] using
          traceGood_final hpre18 (snapE 18) (Or.inl ⟨rfl, rfl, rfl⟩)
      | false =>
        simp only [if_false]
        cases env.download with
        | error e2 =>
          simpa [List.cons_append, List.append_assoc] using
            traceGood_final hpre18 (snapE 18) (Or.inl ⟨rfl, rfl, rfl⟩)
        | ok u => exact runFromDownload_good url env hpre18 (by omega)
  | false =>
    simp only [if_false]
    cases env.download with
    | error e =>
      simpa [List.cons_append, List.append_assoc] using
        traceGood_final hpre15 (snapE 15) (Or.inl ⟨rfl, rfl, rfl⟩)
    | ok u => exact runFromDownload_good url env hpre15 (by omega)

/-- A fully successful collaborator environment (every stage succeeds,
translation requested). -/
def envAllOk : RunEnv :=
  { resolveEpisode := .ok "http://h/ep.mp3", download := .ok (), transcribe := .ok (),
    rawSaveOk := true, optimize := .ok (), shouldTranslate := true, translate := .ok (),
    summarize := .ok (), scriptWriteOk := true, summaryWriteOk := true }

/-- C2: for every run of the orchestrator, the written progress values are
non-decreasing, every snapshot before the last still has `status =
processing` (so a terminal state is never left), statuses range over
processing/completed/error, and every progress value is one of the
checkpoints 0, 10, 15, 18, 35, 40, 55, 70, 80, 100. -/
theorem task_progress_monotone_status_terminal (url content_type : String) (env : RunEnv) :
    List.Chain' (fun a b => a.progress ≤ b.progress) (submissionTrace url content_type env)
    ∧ (∀ s ∈ (submissionTrace url content_type env).dropLast, s.status = "processing")
    ∧ (∀ s ∈ submissionTrace url content_type env,
        s.status = "processing" ∨ s.status = "completed" ∨ s.status = "error")
    ∧ (∀ s ∈ submissionTrace url content_type env, s.progress ∈ allowedProgressN) := by
  obtain ⟨h1, h2, h3⟩ := submissionTrace_good url content_type env
  exact ⟨h1, h2, fun s hs => (h3 s hs).1, fun s hs => (h3 s hs).2.1⟩

/-- C2 witness: progress monotonicity evaluated on a concrete fully
successful run. -/
theorem task_progress_monotone_status_terminal_witness :
    List.Chain' (fun a b => a.progress ≤ b.progress)
      (submissionTrace "https://youtu.be/x" "video" envAllOk)
    ∧ submissionTrace "https://youtu.be/x" "video" envAllOk
        = [snapP 0, snapP 10, snapP 15, snapP 35, snapP 40, snapP 40, snapP 55,
           snapP 70, snapP 80, snapDone] :=
  ⟨(task_progress_monotone_status_terminal "https://youtu.be/x" "video" envAllOk).1,
   by decide⟩

/-- C3 counterexample: a run that dies at the download stage ends in a
terminal `error` snapshot whose `finished_at` is still null — the outer
exception handler (`main.py` 563-568) does not set `finished_at`, refuting
"finished_at is set on every transition to error". -/
theorem error_snapshot_finished_at_null :
    (submissionTrace "https://example.com/page" "video"
      { resolveEpisode := .ok "x", download := .error "下载失败", transcribe := .ok (),
        rawSaveOk := true, optimize := .ok (), shouldTranslate := false,
        translate := .ok (), summarize := .ok (), scriptWriteOk := true,
        summaryWriteOk := true }).getLast?
      = some { status := "error", progress := 15, finishedSet := false } := by decide

/-- C3 (amended): `finished_at` is non-null iff the snapshot's status is
`completed` — null at creation, while processing, and also on every
transition to `error`; it is set exactly on the transition to `completed`. -/
theorem finished_at_iff_completed (url content_type : String) (env : RunEnv) :
    ∀ s ∈ submissionTrace url content_type env,
      (s.finishedSet = true ↔ s.status = "completed") :=
  fun s hs => ((submissionTrace_good url content_type env).2.2 s hs).2.2

/-- C3 witness: the completion snapshot of a concrete successful run carries
a non-null `finished_at`. -/
theorem finished_at_iff_completed_witness :
    (submissionTrace "https://youtu.be/x" "podcast" envAllOk).getLast? = some snapDone
    ∧ snapDone.finishedSet = true := by
  constructor
  · decide
  · exact (finished_at_iff_completed "https://youtu.be/x" "podcast" envAllOk snapDone
      (by decide)).mpr rfl

/-- The URL passed to the downloader is always the resolved URL the stage was
entered with. -/
theorem runFromDownload_downloadedUrl (rurl : String) (pre : List Snap) (env : RunEnv) :
    (runFromDownload rurl pre env).downloadedUrl = some rurl := by
  obtain ⟨re, dl, tr, raw, opt, st, tl, sm, sw, s2⟩ := env
  unfold runFromDownload runFrom80
  cases tr <;> cases raw <;> cases opt <;> cases st <;> cases tl <;> cases sm
    <;> cases sw <;> cases s2 <;> rfl

/-- C5: in a podcast-classified job whose episode resolution raises, the
failure is fatal exactly when the original URL's path is audio/feed-shaped
(`is_audio_or_feed`): then the job goes straight to `error` at progress 18
and the downloader is never reached; otherwise the failure is only logged
and the pipeline continues with the original URL as the media source. -/
theorem podcast_resolution_failure_policy (url : String) (env : RunEnv) (msg : String)
    (hres : env.resolveEpisode = .error msg) :
    (is_audio_or_feed url = true →
      process_video_task url "podcast" env
        = ⟨[snapP 10, snapP 15, snapP 18, snapE 18], none⟩)
    ∧ (is_audio_or_feed url = false →
      (process_video_task url "podcast" env).downloadedUrl = some url) := by
  obtain ⟨re, dl, tr, raw, opt, st, tl, sm, sw, s2⟩ := env
  simp only at hres
  subst hres
  constructor
  · intro haf
    unfold process_video_task
    simp [haf]
  · intro haf
    unfold process_video_task
    simp only [haf, Bool.false_eq_true, if_false, beq_self_eq_true, if_true]
    cases dl with
    | error e => rfl
    | ok u =>
      exact runFromDownload_downloadedUrl url [snapP 10, snapP 15, snapP 18] _

/-- A collaborator environment in which podcast episode resolution raises. -/
def envResFail : RunEnv :=
  { resolveEpisode := .error "网络错误", download := .ok (), transcribe := .ok (),
    rawSaveOk := true, optimize := .ok (), shouldTranslate := false, translate := .ok (),
    summarize := .ok (), scriptWriteOk := true, summaryWriteOk := true }

/-- C5 witness: a feed-shaped URL makes the resolution failure fatal; a
plain page URL falls back to downloading the original URL. -/
theorem podcast_resolution_failure_policy_witness :
    process_video_task "https://example.com/show/feed.rss" "podcast" envResFail
      = ⟨[snapP 10, snapP 15, snapP 18, snapE 18], none⟩
    ∧ (process_video_task "https://example.com/episode-page" "podcast"
        envResFail).downloadedUrl = some "https://example.com/episode-page" := by
  constructor
  · exact (podcast_resolution_failure_policy "https://example.com/show/feed.rss"
      envResFail "网络错误" rfl).1 (by decide)
  · exact (podcast_resolution_failure_policy "https://example.com/episode-page"
      envResFail "网络错误" rfl).2 (by decide)

/-! ## Substring-search characterisations (for C10) -/

theorem isPrefixL_iff (pat : List Char) : ∀ l : List Char,
    isPrefixL pat l = true ↔ ∃ t, l = pat ++ t := by
  induction pat with
  | nil =>
    intro l
    simp [isPrefixL]
  | cons a as ih =>
    intro l
    cases l with
    | nil =>
      simp [isPrefixL]
    | cons b bs =>
      simp only [isPrefixL, Bool.and_eq_true, beq_iff_eq]
      constructor
      · rintro ⟨rfl, h2⟩
        obtain ⟨t, rfl⟩ := (ih bs).mp h2
        exact ⟨t, rfl⟩
      · rintro ⟨t, ht⟩
        rw [List.cons_append] at ht
        injection ht with h1 h2
        exact ⟨h1.symm, (ih bs).mpr ⟨t, h2⟩⟩

theorem isSubL_iff (pat : List Char) : ∀ l : List Char,
    isSubL pat l = true ↔ ∃ s t, l = s ++ (pat ++ t) := by
  intro l
  induction l with
  | nil =>
    cases pat with
    | nil => simp [isSubL]
    | cons a as => simp [isSubL, List.isEmpty]
  | cons c rest ih =>
    simp only [isSubL, Bool.or_eq_true]
    constructor
    · rintro (h | h)
      · obtain ⟨t, ht⟩ := (isPrefixL_iff pat (c :: rest)).mp h
        exact ⟨[], t, ht⟩
      · obtain ⟨s, t, ht⟩ := ih.mp h
        exact ⟨c :: s, t, by rw [ht]; rfl⟩
    · rintro ⟨s, t, ht⟩
      cases s with
      | nil =>
        exact Or.inl ((isPrefixL_iff pat (c :: rest)).mpr ⟨t, by simpa using ht⟩)
      | cons d ds =>
        rw [List.cons_append] at ht
        injection ht with h1 h2
        exact Or.inr (ih.mpr ⟨ds, t, h2⟩)

theorem isPrefixL_self_append (p t : List Char) : isPrefixL p (p ++ t) = true :=
  (isPrefixL_iff p (p ++ t)).mpr ⟨t, rfl⟩

theorem isSubL_single_eq_false {c : Char} {l : List Char} (h : c ∉ l) :
    isSubL [c] l = false := by
  cases hs : isSubL [c] l with
  | false => rfl
  | true =>
    exfalso
    obtain ⟨s, t, ht⟩ := (isSubL_iff [c] l).mp hs
    exact h (by rw [ht]; simp)

theorem isSubL_doubledot_eq_false {base : List Char} (hb : '.' ∉ base) :
    isSubL ['.', '.'] (base ++ ['.', 'm', 'd']) = false := by
  cases hs : isSubL ['.', '.'] (base ++ ['.', 'm', 'd']) with
  | false => rfl
  | true =>
    exfalso
    obtain ⟨s, t, ht⟩ := (isSubL_iff ['.', '.'] (base ++ ['.', 'm', 'd'])).mp hs
    have hcount1 : List.count '.' (base ++ ['.', 'm', 'd']) = 1 := by
      rw [List.count_append, List.count_eq_zero.mpr hb]
      decide
    have ht' : List.count '.' (base ++ ['.', 'm', 'd'])
        = List.count '.' (s ++ (['.', '.'] ++ t)) := by rw [ht]
    rw [hcount1, List.count_append, List.count_append] at ht'
    have h2 : List.count '.' ['.', '.'] = 2 := by decide
    rw [h2] at ht'
    omega

/-! ## Sanitizer character lemmas (C10) -/

theorem mem_collapseWs : ∀ {l : List Char} {c : Char}, c ∈ collapseWs l →
    c = '_' ∨ (c ∈ l ∧ pyIsSpace c = false) := by
  intro l
  induction l with
  | nil => intro c h; simp [collapseWs] at h
  | cons a rest ih =>
    intro c h
    cases rest with
    | nil =>
      by_cases hsp : pyIsSpace a = true
      · rw [show collapseWs [a] = ['_'] from by simp [collapseWs, hsp]] at h
        rw [List.mem_singleton.mp h]
        exact Or.inl rfl
      · rw [show collapseWs [a] = [a] from by simp [collapseWs, hsp]] at h
        rw [List.mem_singleton.mp h]
        refine Or.inr ⟨List.mem_cons_self _ _, ?_⟩
        revert hsp
        cases pyIsSpace a <;> simp
    | cons d rest' =>
      by_cases hsp : pyIsSpace a = true
      · by_cases hd : pyIsSpace d = true
        · rw [show collapseWs (a :: d :: rest') = collapseWs (d :: rest') from by
            simp [collapseWs, hsp, hd]] at h
          rcases ih h with h1 | ⟨h2, h3⟩
          · exact Or.inl h1
          · exact Or.inr ⟨List.mem_cons_of_mem _ h2, h3⟩
        · rw [show collapseWs (a :: d :: rest') = '_' :: collapseWs (d :: rest') from by
            simp [collapseWs, hsp, hd]] at h
          rcases List.mem_cons.mp h with rfl | h'
          · exact Or.inl rfl
          · rcases ih h' with h1 | ⟨h2, h3⟩
            · exact Or.inl h1
            · exact Or.inr ⟨List.mem_cons_of_mem _ h2, h3⟩
      · rw [show collapseWs (a :: d :: rest') = a :: collapseWs (d :: rest') from by
          simp [collapseWs, hsp]] at h
        rcases List.mem_cons.mp h with rfl | h'
        · refine Or.inr ⟨List.mem_cons_self _ _, ?_⟩
          revert hsp
          cases pyIsSpace c <;> simp
        · rcases ih h' with h1 | ⟨h2, h3⟩
          · exact Or.inl h1
          · exact Or.inr ⟨List.mem_cons_of_mem _ h2, h3⟩

theorem mem_stripDDU {l : List Char} {c : Char} (h : c ∈ stripDotDashUnderscore l) :
    c ∈ l := by
  unfold stripDotDashUnderscore at h
  rw [List.mem_reverse] at h
  have h2 := (List.dropWhile_sublist isStripChar).mem h
  rw [List.mem_reverse] at h2
  exact (List.dropWhile_sublist isStripChar).mem h2

theorem sanitize_chars (title : String) :
    ∀ c ∈ (sanitize_title_for_filename title).toList,
      pyIsWordChar c = true ∨ c = '-' := by
  intro c hc
  unfold sanitize_title_for_filename at hc
  by_cases ht : (title == "") = true
  · rw [if_pos ht] at hc
    have : c ∈ "untitled".toList := hc
    fin_cases this <;> simp [pyIsWordChar]
  · rw [if_neg ht] at hc
    by_cases hcl : (stripDotDashUnderscore
        (collapseWs (keepWordDashSpace title.toList))).take 80 = []
    · rw [if_pos (by simpa using hcl)] at hc
      have : c ∈ "untitled".toList := hc
      fin_cases this <;> simp [pyIsWordChar]
    · rw [if_neg (by simpa using hcl)] at hc
      have hc' : c ∈ (stripDotDashUnderscore
          (collapseWs (keepWordDashSpace title.toList))).take 80 := hc
      have hc2 : c ∈ stripDotDashUnderscore (collapseWs (keepWordDashSpace title.toList)) :=
        List.take_subset 80 _ hc'
      have hc3 := mem_stripDDU hc2
      rcases mem_collapseWs hc3 with h1 | ⟨h4, h5⟩
      · rw [h1]
        exact Or.inl (by decide)
      · have h6 := (List.mem_filter.mp h4).2
        rcases Bool.or_eq_true_iff.mp h6 with h7 | h8
        · rcases Bool.or_eq_true_iff.mp h7 with h9 | h10
          · exact Or.inl h9
          · exact Or.inr (by simpa using h10)
        · rw [h8] at h5
          exact absurd h5 (by decide)

theorem sanitize_nonempty_and_short (title : String) :
    sanitize_title_for_filename title ≠ ""
    ∧ (sanitize_title_for_filename title).toList.length ≤ 80 := by
  unfold sanitize_title_for_filename
  by_cases ht : (title == "") = true
  · rw [if_pos ht]
    exact ⟨by decide, by decide⟩
  · rw [if_neg ht]
    by_cases hcl : (stripDotDashUnderscore
        (collapseWs (keepWordDashSpace title.toList))).take 80 = []
    · rw [if_pos (by simpa using hcl)]
      exact ⟨by decide, by decide⟩
    · rw [if_neg (by simpa using hcl)]
      constructor
      · intro hcontra
        exact hcl (by simpa [String.ext_iff] using hcontra)
      · exact List.length_take_le 80 _

theorem char_alnum_ne (ch : Char) (h : ch.isAlphanum = true) :
    ch ≠ '.' ∧ ch ≠ '/' ∧ ch ≠ '\\' := by
  refine ⟨?_, ?_, ?_⟩ <;> rintro rfl <;> exact absurd h (by decide)

theorem char_word_ne (ch : Char) (h : pyIsWordChar ch = true) :
    ch ≠ '.' ∧ ch ≠ '/' ∧ ch ≠ '\\' := by
  refine ⟨?_, ?_, ?_⟩ <;> rintro rfl <;> exact absurd h (by decide)

/-- C10: the sanitizer always returns a non-empty string of at most 80
characters made only of word characters and hyphens, and every artifact
filename `{kind}_{safeTitle}_{shortId}.md` the orchestrator builds from it
contains no `..`, `/` or `\`, passes `_validate_history_filename`, and
passes the download endpoint's filename checks (for a uuid-shaped task id
and an alphanumeric kind). -/
theorem artifact_filename_safe (title task_id kind : String)
    (hkind : ∀ c ∈ kind.toList, c.isAlphanum = true)
    (htid : ∀ c ∈ task_id.toList, c.isAlphanum = true ∨ c = '-') :
    sanitize_title_for_filename title ≠ ""
    ∧ (sanitize_title_for_filename title).toList.length ≤ 80
    ∧ (∀ c ∈ (sanitize_title_for_filename title).toList, pyIsWordChar c = true ∨ c = '-')
    ∧ strIn ".." (artifactFilename kind (sanitize_title_for_filename title)
        (shortIdOf task_id)) = false
    ∧ strIn "/" (artifactFilename kind (sanitize_title_for_filename title)
        (shortIdOf task_id)) = false
    ∧ strIn "\\" (artifactFilename kind (sanitize_title_for_filename title)
        (shortIdOf task_id)) = false
    ∧ validate_history_filename (artifactFilename kind (sanitize_title_for_filename title)
        (shortIdOf task_id)) = true
    ∧ (∀ ex : Bool, (download_file (artifactFilename kind (sanitize_title_for_filename title)
        (shortIdOf task_id)) ex).2 = true) := by
  obtain ⟨hne, hlen⟩ := sanitize_nonempty_and_short title
  set safe := sanitize_title_for_filename title with hsafe
  set sid := shortIdOf task_id with hsid
  set fn := artifactFilename kind safe sid with hfn
  have hsplit : fn.toList
      = (kind.toList ++ '_' :: (safe.toList ++ '_' :: sid.toList)) ++ ['.', 'm', 'd'] := by
    rw [hfn]
    simp [artifactFilename, String.toList, String.data_append]
  have hbase : ∀ ch ∈ kind.toList ++ '_' :: (safe.toList ++ '_' :: sid.toList),
      ch ≠ '.' ∧ ch ≠ '/' ∧ ch ≠ '\\' := by
    intro ch hch
    rcases List.mem_append.mp hch with hk | hrest
    · exact char_alnum_ne ch (hkind ch hk)
    · rcases List.mem_cons.mp hrest with rfl | hrest2
      · exact ⟨by decide, by decide, by decide⟩
      · rcases List.mem_append.mp hrest2 with hs | hrest3
        · rcases sanitize_chars title ch hs with hw | rfl
          · exact char_word_ne ch hw
          · exact ⟨by decide, by decide, by decide⟩
        · rcases List.mem_cons.mp hrest3 with rfl | hsidm
          · exact ⟨by decide, by decide, by decide⟩
          · have hsid' : ch ∈ (task_id.toList.filter (fun c => c != '-')).take 6 := hsidm
            have hf := List.take_subset 6 _ hsid'
            obtain ⟨hmem, hne'⟩ := List.mem_filter.mp hf
            rcases htid ch hmem with ha | rfl
            · exact char_alnum_ne ch ha
            · exact absurd hne' (by decide)
  have hdot : '.' ∉ kind.toList ++ '_' :: (safe.toList ++ '_' :: sid.toList) :=
    fun hm => (hbase '.' hm).1 rfl
  have hdd : strIn ".." fn = false := by
    show isSubL ("..").toList fn.toList = false
    rw [show (".." : String).toList = ['.', '.'] from rfl, hsplit]
    exact isSubL_doubledot_eq_false hdot
  have hsl : strIn "/" fn = false := by
    show isSubL ("/").toList fn.toList = false
    rw [show ("/" : String).toList = ['/'] from rfl, hsplit]
    refine isSubL_single_eq_false ?_
    intro hm
    rcases List.mem_append.mp hm with h | h
    · exact (hbase '/' h).2.1 rfl
    · exact absurd h (by decide)
  have hbs : strIn "\\" fn = false := by
    show isSubL ("\\").toList fn.toList = false
    rw [show ("\\" : String).toList = ['\\'] from rfl, hsplit]
    refine isSubL_single_eq_false ?_
    intro hm
    rcases List.mem_append.mp hm with h | h
    · exact (hbase '\\' h).2.2 rfl
    · exact absurd h (by decide)
  have hmd : strEndsWith fn ".md" = true := by
    show isPrefixL (".md").toList.reverse fn.toList.reverse = true
    rw [hsplit, List.reverse_append,
        show (".md" : String).toList.reverse = ['d', 'm', '.'] from rfl,
        show (['.', 'm', 'd'] : List Char).reverse = ['d', 'm', '.'] from rfl]
    exact isPrefixL_self_append _ _
  have hfne : (fn == "") = false := by
    have : fn.toList ≠ [] := by
      rw [hsplit]
      simp
    cases hb : fn == "" with
    | false => rfl
    | true =>
      exfalso
      exact this (by rw [show fn = "" from by simpa using hb]; rfl)
  refine ⟨hne, hlen, sanitize_chars title, hdd, hsl, hbs, ?_, ?_⟩
  · unfold validate_history_filename
    rw [hfne]
    simp [hdd, hsl, hbs]
  · intro ex
    unfold download_file
    rw [hmd, hdd, hsl, hbs]
    cases ex <;> rfl

/-- C10 witness: a concrete title with punctuation, slash and dots, a
uuid-format task id and the `summary` artifact kind produce a filename that
passes all checks. -/
theorem artifact_filename_safe_witness :
    artifactFilename "summary" (sanitize_title_for_filename "My Video: Part 1/2")
        (shortIdOf "123e4567-e89b-42d3-a456-426614174000")
      = "summary_My_Video_Part_12_123e45.md"
    ∧ validate_history_filename (artifactFilename "summary"
        (sanitize_title_for_filename "My Video: Part 1/2")
        (shortIdOf "123e4567-e89b-42d3-a456-426614174000")) = true
    ∧ (download_file (artifactFilename "summary"
        (sanitize_title_for_filename "My Video: Part 1/2")
        (shortIdOf "123e4567-e89b-42d3-a456-426614174000")) false).2 = true := by
  have h := artifact_filename_safe "My Video: Part 1/2"
    "123e4567-e89b-42d3-a456-426614174000" "summary" (by decide) (by decide)
  exact ⟨by decide, h.2.2.2.2.2.2.1, h.2.2.2.2.2.2.2 false⟩

/-! ## Feed-parsing refinement lemmas (C6) -/

theorem attrGet_mem {e : Element} {k u : String} (h : attrGet e k = some u) :
    ∃ p ∈ e.attrs, (p : String × String).2 = u := by
  unfold attrGet at h
  cases hf : e.attrs.find? (fun p => p.1 == k) with
  | none => rw [hf] at h; exact absurd h (by simp)
  | some p =>
    rw [hf] at h
    simp only [Option.map_some'] at h
    exact ⟨p, List.mem_of_find?_eq_some hf, by injection h⟩

theorem looks_like_audio_url_ok {u : String} (h : exceptIsOk (pyUrlparse u) = true) :
    looks_like_audio_url u = .ok (looksAudioT u) := by
  unfold looksAudioT
  cases hg : looks_like_audio_url u with
  | ok b => rfl
  | error e =>
    exfalso
    unfold looks_like_audio_url at hg
    cases hp : pyUrlparse u with
    | error e2 => rw [hp] at h; exact absurd h (by simp [exceptIsOk])
    | ok parsed => rw [hp] at hg; exact absurd hg (by simp)

theorem guess_title_ok {u : String} (h : exceptIsOk (pyUrlparse u) = true) :
    guess_title_from_url u = .ok (guessT u) := by
  unfold guessT
  cases hg : guess_title_from_url u with
  | ok t => rfl
  | error e =>
    exfalso
    unfold guess_title_from_url at hg
    cases hp : pyUrlparse u with
    | error e2 => rw [hp] at h; exact absurd h (by simp [exceptIsOk])
    | ok parsed => rw [hp] at hg; exact absurd hg (by simp)

theorem enclosureOfE_ok {e : Element} (h : attrsOkB e = true) :
    enclosureOfE e = .ok (enclosureOfT e) := by
  unfold enclosureOfE enclosureOfT
  by_cases h1 : (strip_namespace e.tag == "enclosure") = true
  · cases hu : attrGet e "url" with
    | none => simp [h1, hu]
    | some u => cases hu0 : u != "" <;> simp [h1, hu, hu0]
  · by_cases h2 : (strip_namespace e.tag == "content") = true
    · cases hu : attrGet e "url" with
      | none => simp [h1, h2, hu]
      | some u =>
        cases hu0 : u == "" with
        | true => simp [h1, h2, hu, hu0]
        | false =>
          have hok : exceptIsOk (pyUrlparse u) = true := by
            obtain ⟨p, hp, hpu⟩ := attrGet_mem hu
            have hall := List.all_eq_true.mp h p hp
            rw [hpu] at hall
            exact hall
          by_cases hcond : (looksAudioT u
              || is_audio_content_type ((attrGet e "type").getD "")) = true
          · simp [h1, h2, hu, hu0, looks_like_audio_url_ok hok, hcond]
          · simp [h1, h2, hu, hu0, looks_like_audio_url_ok hok, hcond]
    · cases h3 : (strip_namespace e.tag == "link" && (attrGet e "rel" == some "enclosure")) with
      | false => simp [h1, h2, h3]
      | true =>
        cases hu : attrGet e "href" with
        | none => simp [h1, h2, h3, hu]
        | some u => cases hu0 : u != "" <;> simp [h1, h2, h3, hu, hu0]

theorem scanEnclosure_ok : ∀ {l : List Element}, (∀ e ∈ l, attrsOkB e = true) →
    scanEnclosure l = .ok (scanT l) := by
  intro l
  induction l with
  | nil => intro h; rfl
  | cons e rest ih =>
    intro h
    have he := h e (List.mem_cons_self _ _)
    have hrest := fun x hx => h x (List.mem_cons_of_mem _ hx)
    unfold scanEnclosure scanT
    rw [enclosureOfE_ok he, List.findSome?_cons]
    cases ht : enclosureOfT e with
    | some r => rfl
    | none => exact ih hrest

theorem extract_enclosure_ok {it : Element} (h : itemUrlsOk it = true) :
    extract_enclosure it = .ok (scanT it.iterList) :=
  scanEnclosure_ok (List.all_eq_true.mp h)

theorem enclosureOfT_attr {e : Element} {au : String} {mt : Option String}
    (h : enclosureOfT e = some (au, mt)) :
    ∃ p ∈ e.attrs, (p : String × String).2 = au := by
  unfold enclosureOfT at h
  by_cases h1 : (strip_namespace e.tag == "enclosure") = true
  · cases hu : attrGet e "url" with
    | none => simp [h1, hu] at h
    | some u =>
      cases hu0 : u != "" with
      | false => simp [h1, hu, hu0] at h
      | true =>
        simp [h1, hu, hu0] at h
        obtain ⟨p, hp, hpu⟩ := attrGet_mem hu
        exact ⟨p, hp, by rw [hpu]; exact h.1⟩
  · by_cases h2 : (strip_namespace e.tag == "content") = true
    · cases hu : attrGet e "url" with
      | none => simp [h1, h2, hu] at h
      | some u =>
        cases hu0 : u == "" with
        | true => simp [h1, h2, hu, hu0] at h
        | false =>
          by_cases hcond : (looksAudioT u
              || is_audio_content_type ((attrGet e "type").getD "")) = true
          · simp [h1, h2, hu, hu0, hcond] at h
            obtain ⟨p, hp, hpu⟩ := attrGet_mem hu
            exact ⟨p, hp, by rw [hpu]; exact h.1⟩
          · simp [h1, h2, hu, hu0, hcond] at h
    · cases h3 : (strip_namespace e.tag == "link" && (attrGet e "rel" == some "enclosure")) with
      | false => simp [h1, h2, h3] at h
      | true =>
        cases hu : attrGet e "href" with
        | none => simp [h1, h2, h3, hu] at h
        | some u =>
          cases hu0 : u != "" with
          | false => simp [h1, h2, h3, hu, hu0] at h
          | true =>
            simp [h1, h2, h3, hu, hu0] at h
            obtain ⟨p, hp, hpu⟩ := attrGet_mem hu
            exact ⟨p, hp, by rw [hpu]; exact h.1⟩

theorem scanT_attr : ∀ {l : List Element} {au : String} {mt : Option String},
    scanT l = some (au, mt) → ∃ e ∈ l, ∃ p ∈ e.attrs, (p : String × String).2 = au := by
  intro l
  induction l with
  | nil => intro au mt h; exact absurd h (by simp [scanT])
  | cons e rest ih =>
    intro au mt h
    unfold scanT at h
    rw [List.findSome?_cons] at h
    cases ht : enclosureOfT e with
    | some r =>
      rw [ht] at h
      obtain ⟨p, hp, hpu⟩ := enclosureOfT_attr (show enclosureOfT e = some (au, mt) from by
        rw [ht]; exact h)
      exact ⟨e, List.mem_cons_self _ _, p, hp, hpu⟩
    | none =>
      rw [ht] at h
      obtain ⟨e2, he2, p, hp, hpu⟩ := ih h
      exact ⟨e2, List.mem_cons_of_mem _ he2, p, hp, hpu⟩

theorem find_episode_ok (feed_url : String) : ∀ items : List Element,
    (∀ it ∈ items, itemUrlsOk it = true) →
    find_episode feed_url items
      = (match items.find? resolvableB with
         | none => .error "RSS中未找到可用的音频链接"
         | some it => .ok (episodeOfItem it feed_url)) := by
  intro items
  induction items with
  | nil => intro h; rfl
  | cons it rest ih =>
    intro h
    have hit := h it (List.mem_cons_self _ _)
    have hrest := fun x hx => h x (List.mem_cons_of_mem _ hx)
    cases hscan : scanT it.iterList with
    | none =>
      have hres : ¬resolvableB it = true := by
        unfold resolvableB
        rw [hscan]
        decide
      rw [List.find?_cons_of_neg _ hres]
      have hlhs : find_episode feed_url (it :: rest) = find_episode feed_url rest := by
        conv_lhs => rw [find_episode]
        rw [extract_enclosure_ok hit, hscan]
      rw [hlhs]
      exact ih hrest
    | some r =>
      obtain ⟨au, mt⟩ := r
      have hres : resolvableB it = true := by
        unfold resolvableB
        rw [hscan]
        rfl
      rw [List.find?_cons_of_pos _ hres]
      have hau : exceptIsOk (pyUrlparse au) = true := by
        obtain ⟨e, hel, p, hp, hpau⟩ := scanT_attr hscan
        have h1 := List.all_eq_true.mp hit e hel
        have h2 := List.all_eq_true.mp h1 p hp
        rw [hpau] at h2
        exact h2
      have hep : episodeOfItem it feed_url
          = { audio_url := au,
              title := match get_child_text it "title" with
                       | some t => if t == "" then guessT au else t
                       | none => guessT au,
              episode_url := get_episode_link it,
              feed_url := some feed_url,
              mime_type := mt } := by
        unfold episodeOfItem
        rw [hscan]
      have hlhs : find_episode feed_url (it :: rest) = episodeFromItem feed_url it au mt := by
        conv_lhs => rw [find_episode]
        rw [extract_enclosure_ok hit, hscan]
      show find_episode feed_url (it :: rest) = .ok (episodeOfItem it feed_url)
      rw [hlhs, hep]
      unfold episodeFromItem
      cases hct : get_child_text it "title" with
      | some t =>
        cases hte : t == "" with
        | true => simp [hct, hte, guess_title_ok hau]
        | false => simp [hct, hte]
      | none => simp [hct, guess_title_ok hau]

/-- C6 counterexample: a well-formed feed whose only entry carries a
`content` element with an audio MIME type (so the entry "yields resolvable
audio" in the spec's sense) but an unparsable URL makes `_parse_feed` raise
`urlparse`'s `ValueError("Invalid IPv6 URL")` — an error although neither
"the XML is malformed" nor "no entry yields audio" holds. -/
theorem parse_feed_error_despite_audio_entry :
    exceptIsOk (parse_feed
      (.mk "rss" [] "" [.mk "item" [] "" [
        .mk "content" [("url", "http://["), ("type", "audio/mpeg")] "" []]])
      "http://h/feed.xml") = false
    ∧ resolvableB (.mk "item" [] "" [
        .mk "content" [("url", "http://["), ("type", "audio/mpeg")] "" []]) = true
    ∧ parse_feed
      (.mk "rss" [] "" [.mk "item" [] "" [
        .mk "content" [("url", "http://["), ("type", "audio/mpeg")] "" []]])
      "http://h/feed.xml" = .error "Invalid IPv6 URL" := by
  refine ⟨rfl, rfl, rfl⟩

/-- C6 (amended): for a well-formed feed all of whose entry attribute URLs
`urlparse` accepts, feed parsing returns the episode built from the first
`item`/`entry` in document order with resolvable audio (enclosure URL,
audio-looking or audio-typed `content`, or `rel="enclosure"` link; title
from the entry's `title` child text, else guessed from the audio URL), it
fails with the `ValueError` "RSS中未找到可用的音频链接" exactly when no entry
yields audio, and the malformed-XML outcome is the `ValueError`
"播客RSS格式无法解析". -/
theorem parse_feed_first_audio (root : Element) (feed_url : String)
    (hok : feedUrlsOk root = true) :
    (match (itemsOf root).find? resolvableB with
     | none => parse_feed root feed_url = .error "RSS中未找到可用的音频链接"
     | some it => parse_feed root feed_url = .ok (episodeOfItem it feed_url))
    ∧ (exceptIsOk (parse_feed root feed_url) = true
        ↔ (itemsOf root).any resolvableB = true)
    ∧ (∀ err : String, parse_feed_text (.error err) feed_url = .error "播客RSS格式无法解析") := by
  have hitems := List.all_eq_true.mp hok
  have hfe := find_episode_ok feed_url (itemsOf root) hitems
  refine ⟨?_, ?_, fun err => rfl⟩
  · cases hf : (itemsOf root).find? resolvableB with
    | none => rw [hf] at hfe; exact hfe
    | some it => rw [hf] at hfe; exact hfe
  · cases hf : (itemsOf root).find? resolvableB with
    | none =>
      rw [hf] at hfe
      have hperr : exceptIsOk (parse_feed root feed_url) = false := by
        show exceptIsOk (find_episode feed_url (itemsOf root)) = false
        rw [hfe]
        rfl
      rw [hperr]
      rw [List.find?_eq_none] at hf
      constructor
      · intro hc; exact absurd hc (by decide)
      · intro hc
        obtain ⟨x, hx, hpx⟩ := List.any_eq_true.mp hc
        exact absurd hpx (hf x hx)
    | some it =>
      rw [hf] at hfe
      have hpok : exceptIsOk (parse_feed root feed_url) = true := by
        show exceptIsOk (find_episode feed_url (itemsOf root)) = true
        rw [hfe]
        rfl
      rw [hpok]
      have hmem := List.mem_of_find?_eq_some hf
      have hpit := List.find?_some hf
      exact ⟨fun _ => List.any_eq_true.mpr ⟨it, hmem, hpit⟩, fun _ => rfl⟩

/-- A feed with a non-audio first entry and an enclosure-bearing second
entry, for the C6 witness. -/
def feedRootW : Element :=
  .mk "rss" [] "" [.mk "channel" [] "" [
    .mk "item" [] "" [.mk "title" [] "No audio here" []],
    .mk "item" [] "" [
      .mk "title" [] "Ep Two" [],
      .mk "enclosure" [("url", "http://h/ep2.mp3"), ("type", "audio/mpeg")] "" []]]]

/-- C6 witness: on a concrete two-entry feed whose first entry has no audio,
parsing returns the second entry's enclosure with its title text. -/
theorem parse_feed_first_audio_witness :
    parse_feed feedRootW "http://h/feed.xml"
      = .ok { audio_url := "http://h/ep2.mp3", title := "Ep Two", episode_url := none,
              feed_url := some "http://h/feed.xml", mime_type := some "audio/mpeg" } := by
  have h := (parse_feed_first_audio feedRootW "http://h/feed.xml" (by decide)).1
  rw [show (itemsOf feedRootW).find? resolvableB
      = some (.mk "item" [] "" [
          .mk "title" [] "Ep Two" [],
          .mk "enclosure" [("url", "http://h/ep2.mp3"), ("type", "audio/mpeg")] "" []])
    from rfl] at h
  exact h

end AVT
